import Mathlib

/-!
# Verification of the scan admission pipeline (neocard-backend)

Shallow embedding of the core of the repository:

* `src/unnamed/part_001` ("utils"): `generateAEIChecksum`, `verifyAEIChecksum`,
  `isValidUID`, `isWithinCooldown`;
* `src/middleware/index.js`: `validateScanRequest`, `antiFraudCheck`;
* `src/database/index.js`: `insertScan`, `getScans`, `getLastScanTime`,
  `getDailyScanCount`, `getStats` (SQLite semantics made explicit);
* `src/routes/api.js`: the `POST /scan` handler.

Modelling conventions:

* Instants (the values `moment` computes diffs over, and `Date.now()`) are
  modelled as integer milliseconds since the Unix epoch.  `moment#diff(x,
  'minutes')` truncates toward zero, which is `Int.tdiv` of the millisecond
  difference by 60000.
* Stored timestamps are the ISO-8601 strings produced by
  `new Date().toISOString()`; SQLite compares `TEXT` values bytewise, which on
  these ASCII strings is exactly Lean's `String` order.
* `DATE(timestamp)` on such a string is its first ten characters.
* Fallible JavaScript paths (promise rejections, thrown exceptions, SQL
  errors) are `Except`.
-/

namespace NeoCard

/-! ## Anti-fraud configuration (src/config/index.js, `antifraud`) -/

/-- `config.antifraud`: `cooldownMinutes` (default 5) and `dailyScanLimit`
(default 100). -/
structure AntifraudConfig where
  cooldownMinutes : Nat
  dailyScanLimit : Nat
deriving DecidableEq

/-- The default configuration: 5-minute cooldown, 100 scans per day. -/
def defaultConfig : AntifraudConfig := { cooldownMinutes := 5, dailyScanLimit := 100 }

/-! ## Cooldown test (src/unnamed/part_001, `isWithinCooldown`) -/

/-- `isWithinCooldown(lastScanTime, cooldownMinutes)` from the utils module:
returns `false` when `lastScanTime` is absent; otherwise compares
`moment().diff(moment(lastScanTime), 'minutes') < cooldownMinutes`.
`moment#diff` in minutes truncates the millisecond difference toward zero,
i.e. `Int.tdiv` by 60000.  The implicit clock `moment()` is the explicit
argument `now`. -/
def isWithinCooldown (lastScanTime : Option Int) (now : Int) (cooldownMinutes : Nat) : Bool :=
  match lastScanTime with
  | none => false
  | some lastScan => decide (Int.tdiv (now - lastScan) 60000 < (cooldownMinutes : Int))

/-! ## Fraud decision (src/middleware/index.js, `antiFraudCheck`) -/

/-- Outcome of the anti-fraud middleware: pass the request on (`next()`),
or answer 429 with `COOLDOWN_ACTIVE` (carrying `config.antifraud.cooldownMinutes`)
or `DAILY_LIMIT_EXCEEDED` (carrying the limit and the current count). -/
inductive FraudDecision where
  | proceed
  | cooldownActive (cooldownMinutes : Nat)
  | dailyLimitExceeded (dailyLimit currentCount : Nat)
deriving DecidableEq

/-- `antiFraudCheck` with both storage reads already resolved: first the
cooldown check against `getLastScanTime(uid)` (skipped when that is `null`),
then the daily-limit check against `getDailyScanCount(uid, today)`. -/
def antiFraudDecision (cfg : AntifraudConfig) (lastScanTime : Option Int) (now : Int)
    (dailyScanCount : Nat) : FraudDecision :=
  if (match lastScanTime with
      | some t => isWithinCooldown (some t) now cfg.cooldownMinutes
      | none => false) then
    .cooldownActive cfg.cooldownMinutes
  else if cfg.dailyScanLimit ≤ dailyScanCount then
    .dailyLimitExceeded cfg.dailyScanLimit dailyScanCount
  else
    .proceed

/-- Storage-level failures surfaced by the database module. -/
inductive DbError where
  | uniqueViolation
  | ioError
deriving DecidableEq

/-- `antiFraudCheck` with its storage reads as fallible inputs, mirroring the
`try`/`catch` in the middleware: a rejected read reaches the `catch` block and
is passed to `next(error)` (an error, never a decision).  The daily count is
only read after the cooldown check passes, as in the source. -/
def antiFraudCheckE (cfg : AntifraudConfig) (lastScanRes : Except DbError (Option Int))
    (now : Int) (dailyCountRes : Except DbError Nat) : Except DbError FraudDecision :=
  match lastScanRes with
  | .error e => .error e
  | .ok lastScanTime =>
    if (match lastScanTime with
        | some t => isWithinCooldown (some t) now cfg.cooldownMinutes
        | none => false) then
      .ok (.cooldownActive cfg.cooldownMinutes)
    else
      match dailyCountRes with
      | .error e => .error e
      | .ok dailyScanCount =>
        .ok (if cfg.dailyScanLimit ≤ dailyScanCount then
          .dailyLimitExceeded cfg.dailyScanLimit dailyScanCount
        else
          .proceed)

/-! ## UID validation (src/unnamed/part_001, `isValidUID`) -/

/-- One character of the regex class `[A-Za-z0-9]`. -/
def isUidChar (c : Char) : Bool :=
  ('A' ≤ c && c ≤ 'Z') || ('a' ≤ c && c ≤ 'z') || ('0' ≤ c && c ≤ '9')

/-- `isValidUID`: the whole string matches `/^[A-Za-z0-9]{8,16}$/`, i.e. it
consists of 8 to 16 characters of the class `[A-Za-z0-9]`. -/
def isValidUID (uid : String) : Bool :=
  8 ≤ uid.length && uid.length ≤ 16 && uid.data.all isUidChar

/-! ## SHA-256 and HMAC (model of Node's `crypto.createHmac('sha256', …)`)

The integrity codec calls `crypto.createHmac('sha256', secretKey)` and hex
encodes the digest.  We embed SHA-256 (FIPS 180-4) and HMAC (RFC 2104)
executably over byte lists; 32-bit words are `Nat` with explicit
`% 4294967296`. -/

/-- Right rotation of a 32-bit word. -/
def rotr32 (n x : Nat) : Nat := (x >>> n) ||| ((x <<< (32 - n)) % 4294967296)

/-- 32-bit bitwise complement. -/
def not32 (x : Nat) : Nat := x ^^^ 4294967295

/-- SHA-256 Σ₀. -/
def bigSigma0 (x : Nat) : Nat := rotr32 2 x ^^^ rotr32 13 x ^^^ rotr32 22 x

/-- SHA-256 Σ₁. -/
def bigSigma1 (x : Nat) : Nat := rotr32 6 x ^^^ rotr32 11 x ^^^ rotr32 25 x

/-- SHA-256 σ₀. -/
def smallSigma0 (x : Nat) : Nat := rotr32 7 x ^^^ rotr32 18 x ^^^ (x >>> 3)

/-- SHA-256 σ₁. -/
def smallSigma1 (x : Nat) : Nat := rotr32 17 x ^^^ rotr32 19 x ^^^ (x >>> 10)

/-- SHA-256 `Ch`. -/
def chF (e f g : Nat) : Nat := (e &&& f) ^^^ (not32 e &&& g)

/-- SHA-256 `Maj`. -/
def majF (a b c : Nat) : Nat := (a &&& b) ^^^ (a &&& c) ^^^ (b &&& c)

/-- The eight 32-bit working variables of SHA-256 (`h` is called `hh`). -/
structure Sha256State where
  a : Nat
  b : Nat
  c : Nat
  d : Nat
  e : Nat
  f : Nat
  g : Nat
  hh : Nat
deriving DecidableEq

/-- SHA-256 round constants (FIPS 180-4 §4.2.2, written in decimal). -/
def sha256K : List Nat :=
  [1116352408, 1899447441, 3049323471, 3921009573, 961987163, 1508970993, 2453635748,
   2870763221, 3624381080, 310598401, 607225278, 1426881987, 1925078388, 2162078206,
   2614888103, 3248222580, 3835390401, 4022224774, 264347078, 604807628, 770255983,
   1249150122, 1555081692, 1996064986, 2554220882, 2821834349, 2952996808, 3210313671,
   3336571891, 3584528711, 113926993, 338241895, 666307205, 773529912, 1294757372,
   1396182291, 1695183700, 1986661051, 2177026350, 2456956037, 2730485921, 2820302411,
   3259730800, 3345764771, 3516065817, 3600352804, 4094571909, 275423344, 430227734,
   506948616, 659060556, 883997877, 958139571, 1322822218, 1537002063, 1747873779,
   1955562222, 2024104815, 2227730452, 2361852424, 2428436474, 2756734187, 3204031479,
   3329325298]

/-- SHA-256 initial hash value (FIPS 180-4 §5.3.3, written in decimal). -/
def sha256Init : Sha256State :=
  ⟨1779033703, 3144134277, 1013904242, 2773480762, 1359893119, 2600822924, 528734635,
   1541459225⟩

/-- Big-endian packing of bytes into 32-bit words. -/
def toWords : List Nat → List Nat
  | b0 :: b1 :: b2 :: b3 :: rest => (((b0 * 256 + b1) * 256 + b2) * 256 + b3) :: toWords rest
  | _ => []

/-- One step of the message-schedule extension: appends
`σ₁(w[i-2]) + w[i-7] + σ₀(w[i-15]) + w[i-16] mod 2^32` for `i` the current
length. -/
def extendOne (w : List Nat) : List Nat :=
  w ++ [(smallSigma1 (w.getD (w.length - 2) 0) + w.getD (w.length - 7) 0 +
         smallSigma0 (w.getD (w.length - 15) 0) + w.getD (w.length - 16) 0) % 4294967296]

/-- Iterate `extendOne`. -/
def extendN : Nat → List Nat → List Nat
  | 0, w => w
  | n + 1, w => extendN n (extendOne w)

/-- The 64-word message schedule of one 64-byte block. -/
def messageSchedule (block : List Nat) : List Nat := extendN 48 (toWords block)

/-- One SHA-256 compression round, consuming a pair `(K[i], W[i])`. -/
def roundStep (st : Sha256State) (kw : Nat × Nat) : Sha256State :=
  let t1 := (st.hh + bigSigma1 st.e + chF st.e st.f st.g + kw.1 + kw.2) % 4294967296
  let t2 := (bigSigma0 st.a + majF st.a st.b st.c) % 4294967296
  { a := (t1 + t2) % 4294967296, b := st.a, c := st.b, d := st.c,
    e := (st.d + t1) % 4294967296, f := st.e, g := st.f, hh := st.g }

/-- Compress one 64-byte block into the running hash state. -/
def compressBlock (st : Sha256State) (block : List Nat) : Sha256State :=
  let w := messageSchedule block
  let r := (sha256K.zip w).foldl roundStep st
  { a := (st.a + r.a) % 4294967296, b := (st.b + r.b) % 4294967296,
    c := (st.c + r.c) % 4294967296, d := (st.d + r.d) % 4294967296,
    e := (st.e + r.e) % 4294967296, f := (st.f + r.f) % 4294967296,
    g := (st.g + r.g) % 4294967296, hh := (st.hh + r.hh) % 4294967296 }

/-- Accumulate bytes into 64-byte blocks (structural recursion so the kernel
can evaluate it). -/
def toBlocksGo : List Nat → List Nat → List (List Nat)
  | [], acc => if acc.isEmpty then [] else [acc]
  | b :: rest, acc =>
    let acc2 := acc ++ [b]
    if acc2.length = 64 then acc2 :: toBlocksGo rest [] else toBlocksGo rest acc2

/-- Split a byte list into 64-byte blocks. -/
def toBlocks (l : List Nat) : List (List Nat) := toBlocksGo l []

/-- The eight big-endian length bytes of the SHA-256 padding (message length
in bits, modulo `2^64`). -/
def lenBytes (len : Nat) : List Nat :=
  let bits := (len * 8) % 18446744073709551616
  [(bits >>> 56) % 256, (bits >>> 48) % 256, (bits >>> 40) % 256, (bits >>> 32) % 256,
   (bits >>> 24) % 256, (bits >>> 16) % 256, (bits >>> 8) % 256, bits % 256]

/-- SHA-256 padding: a `0x80` byte, zeros up to 56 mod 64, then the length. -/
def sha256Pad (msg : List Nat) : List Nat :=
  msg ++ 128 :: (List.replicate ((119 - msg.length % 64) % 64) 0 ++ lenBytes msg.length)

/-- SHA-256 of a byte list, as 32 bytes. -/
def sha256 (msg : List Nat) : List Nat :=
  let st := (toBlocks (sha256Pad msg)).foldl compressBlock sha256Init
  [st.a, st.b, st.c, st.d, st.e, st.f, st.g, st.hh].flatMap wordBytes
where
  /-- Big-endian bytes of one 32-bit word. -/
  wordBytes (w : Nat) : List Nat :=
    [(w >>> 24) % 256, (w >>> 16) % 256, (w >>> 8) % 256, w % 256]

/-- HMAC-SHA256 (RFC 2104): keys longer than the 64-byte block are hashed,
the key is zero-padded to 64 bytes, and the digest is
`H((k ⊕ opad) ‖ H((k ⊕ ipad) ‖ msg))`. -/
def hmacSha256 (key msg : List Nat) : List Nat :=
  let k0 := if 64 < key.length then sha256 key else key
  let kpad := k0 ++ List.replicate (64 - k0.length) 0
  sha256 ((kpad.map fun b => b ^^^ 92) ++ sha256 ((kpad.map fun b => b ^^^ 54) ++ msg))

/-- UTF-8 encoding of one character (what `hash.update(string)` hashes). -/
def utf8Bytes (c : Char) : List Nat :=
  let n := c.toNat
  if n < 128 then [n]
  else if n < 2048 then [192 + n / 64, 128 + n % 64]
  else if n < 65536 then [224 + n / 4096, 128 + n / 64 % 64, 128 + n % 64]
  else [240 + n / 262144, 128 + n / 4096 % 64, 128 + n / 64 % 64, 128 + n % 64]

/-- UTF-8 bytes of a string. -/
def strBytes (s : String) : List Nat := s.data.flatMap utf8Bytes

/-- Lowercase hex encoding of a byte list (`digest('hex')`). -/
def bytesToHex (bs : List Nat) : List Char :=
  bs.flatMap fun b => [Nat.digitChar (b / 16), Nat.digitChar (b % 16)]

/-- `crypto.createHmac('sha256', secretKey).update(data).digest('hex')`. -/
def hmacSha256Hex (secretKey data : String) : String :=
  String.mk (bytesToHex (hmacSha256 (strBytes secretKey) (strBytes data)))

/-- `generateAEIChecksum(uid, timestamp, campaignId, secretKey)` from the
utils module: the HMAC-SHA256, hex encoded, of the template-literal
concatenation `${uid}${timestamp}${campaignId}` keyed by `secretKey`. -/
def generateAEIChecksum (uid timestamp campaignId secretKey : String) : String :=
  hmacSha256Hex secretKey (uid ++ timestamp ++ campaignId)

/-! ## Node hex decoding and `verifyAEIChecksum` -/

/-- A hex digit as recognised by Node's `Buffer.from(…, 'hex')`. -/
def isHexDigitB (c : Char) : Bool :=
  ('0' ≤ c && c ≤ '9') || ('a' ≤ c && c ≤ 'f') || ('A' ≤ c && c ≤ 'F')

/-- Numeric value of a hex digit. -/
def hexVal (c : Char) : Nat :=
  if '0' ≤ c && c ≤ '9' then c.toNat - 48
  else if 'a' ≤ c && c ≤ 'f' then c.toNat - 87
  else if 'A' ≤ c && c ≤ 'F' then c.toNat - 55
  else 0

/-- `Buffer.from(s, 'hex')`: decodes complete hex pairs from the left and
stops (dropping the rest) at the first invalid character or at a dangling
final digit. -/
def bufferFromHex : List Char → List Nat
  | c1 :: c2 :: rest =>
    if isHexDigitB c1 && isHexDigitB c2 then
      (hexVal c1 * 16 + hexVal c2) :: bufferFromHex rest
    else []
  | _ => []

/-- The exception `crypto.timingSafeEqual` throws when the two buffers have
different byte lengths. -/
inductive CryptoError where
  | rangeError
deriving DecidableEq

/-- `verifyAEIChecksum`: recomputes the expected checksum and calls
`crypto.timingSafeEqual(Buffer.from(expected, 'hex'), Buffer.from(provided,
'hex'))`, which throws a `RangeError` when the buffers differ in length and
otherwise returns the comparison. -/
def verifyAEIChecksum (uid timestamp campaignId providedChecksum secretKey : String) :
    Except CryptoError Bool :=
  let expectedChecksum := generateAEIChecksum uid timestamp campaignId secretKey
  let expectedBytes := bufferFromHex expectedChecksum.data
  let providedBytes := bufferFromHex providedChecksum.data
  if expectedBytes.length = providedBytes.length then .ok (expectedBytes == providedBytes)
  else .error .rangeError

/-! ## Bytewise string comparison (SQLite `TEXT` collation)

SQLite compares `TEXT` values with `memcmp` over their bytes; on the ASCII
strings stored here this is exactly lexicographic comparison of the
character lists, which is also Lean's `String` order.  We define it as a
structurally recursive boolean so the kernel can evaluate concrete queries,
and prove it equivalent to Mathlib's `≤` on `String`. -/

/-- Lexicographic `≤` on character lists, decided structurally. -/
def listCharLeB : List Char → List Char → Bool
  | [], _ => true
  | _ :: _, [] => false
  | c :: cs, d :: ds => if c < d then true else if d < c then false else listCharLeB cs ds

/-- Bytewise (lexicographic) `≤` on strings. -/
def strLeB (a b : String) : Bool := listCharLeB a.data b.data

/-! ## Scan ledger (src/database/index.js) -/

/-- One row of the `scans` table, as inserted by the `POST /scan` handler.
`timestamp` is the stored `DATETIME` text (an ISO-8601 string). -/
structure ScanRecord where
  scan_id : String
  uid : String
  campaign_id : String
  timestamp : String
  checksum : String
  verified : Bool
deriving DecidableEq

/-- `insertScan`: `INSERT INTO scans …` under the `scan_id TEXT UNIQUE NOT
NULL` constraint — SQLite rejects the insert with a constraint error when a
row with the same `scan_id` exists, and otherwise appends the row. -/
def insertScan (db : List ScanRecord) (scanData : ScanRecord) :
    Except DbError (List ScanRecord) :=
  if db.any fun x => x.scan_id == scanData.scan_id then .error .uniqueViolation
  else .ok (db ++ [scanData])

/-- The one SQL-level failure `getScans` can produce: the source appends
`OFFSET ?` without a `LIMIT` clause when only `filters.offset` is truthy,
and SQLite's grammar has no `OFFSET` without `LIMIT` — the statement fails
with `near "OFFSET": syntax error`. -/
inductive SqlError where
  | offsetWithoutLimit
deriving DecidableEq

/-- The optional filters of `getScans`.  A field is `none` when the
corresponding key is absent or falsy (the source guards each clause with
`if (filters.x)`). -/
structure ScanFilters where
  uid : Option String := none
  campaign_id : Option String := none
  start_date : Option String := none
  end_date : Option String := none
  limit : Option Nat := none
  offset : Option Nat := none
deriving DecidableEq

/-- The `WHERE` clauses of `getScans`, applied one at a time in source
order: `uid = ?`, `campaign_id = ?`, `timestamp >= ?`, `timestamp <= ?`
(SQLite compares `TEXT` bytewise, i.e. by `String` order). -/
def filteredScans (db : List ScanRecord) (filters : ScanFilters) : List ScanRecord :=
  let rows := db
  let rows := match filters.uid with
    | some u => rows.filter fun r => r.uid == u
    | none => rows
  let rows := match filters.campaign_id with
    | some c => rows.filter fun r => r.campaign_id == c
    | none => rows
  let rows := match filters.start_date with
    | some sd => rows.filter fun r => strLeB sd r.timestamp
    | none => rows
  match filters.end_date with
  | some ed => rows.filter fun r => strLeB r.timestamp ed
  | none => rows

/-- The `ORDER BY timestamp DESC` comparison: row `a` may precede row `b`
when `b`'s timestamp is at most `a`'s. -/
def timestampGe (a b : ScanRecord) : Prop := strLeB b.timestamp a.timestamp = true

instance : DecidableRel timestampGe :=
  fun a b => instDecidableEqBool (strLeB b.timestamp a.timestamp) true

/-- `ORDER BY timestamp DESC` (ties in unspecified order, as in SQLite). -/
def sortByTimestampDesc (rows : List ScanRecord) : List ScanRecord :=
  List.insertionSort timestampGe rows

/-- `getScans`: filters, sorts descending by timestamp, then applies
`LIMIT ?`/`OFFSET ?` — each clause added only when its filter is present.
`LIMIT l OFFSET o` skips `o` rows then returns at most `l`; `OFFSET` without
`LIMIT` is a SQLite syntax error, surfaced as a rejected promise. -/
def getScans (db : List ScanRecord) (filters : ScanFilters) :
    Except SqlError (List ScanRecord) :=
  let sorted := sortByTimestampDesc (filteredScans db filters)
  match filters.limit, filters.offset with
  | some l, some o => .ok ((sorted.drop o).take l)
  | some l, none => .ok (sorted.take l)
  | none, some _ => .error .offsetWithoutLimit
  | none, none => .ok sorted

/-- All four row conditions of `getScans` as one boolean conjunction. -/
def matchesB (filters : ScanFilters) (r : ScanRecord) : Bool :=
  (match filters.uid with | some u => r.uid == u | none => true) &&
  (match filters.campaign_id with | some c => r.campaign_id == c | none => true) &&
  (match filters.start_date with | some sd => strLeB sd r.timestamp | none => true) &&
  (match filters.end_date with | some ed => strLeB r.timestamp ed | none => true)

/-- Specification-level reading of the filters: the record agrees with every
supplied filter, the timestamp range being inclusive on both ends. -/
def matchesFilters (filters : ScanFilters) (r : ScanRecord) : Prop :=
  (∀ u, filters.uid = some u → r.uid = u) ∧
  (∀ c, filters.campaign_id = some c → r.campaign_id = c) ∧
  (∀ sd, filters.start_date = some sd → sd ≤ r.timestamp) ∧
  (∀ ed, filters.end_date = some ed → r.timestamp ≤ ed)

/-- `getLastScanTime(uid)`: `SELECT timestamp … WHERE uid = ? ORDER BY
timestamp DESC LIMIT 1`. -/
def getLastScanTime (db : List ScanRecord) (uid : String) : Option String :=
  (sortByTimestampDesc (db.filter fun r => r.uid == uid)).head?.map fun r => r.timestamp

/-- `DATE(timestamp)` of a stored ISO string: its first ten characters
(`YYYY-MM-DD`). -/
def sqlDate (timestamp : String) : List Char := timestamp.data.take 10

/-- `getDailyScanCount(uid, date)`: `SELECT COUNT(*) … WHERE uid = ? AND
DATE(timestamp) = ?`. -/
def getDailyScanCount (db : List ScanRecord) (uid : String) (date : List Char) : Nat :=
  (db.filter fun r => r.uid == uid && r.timestamp.data.take 10 == date).length

/-- The five aggregates of `getStats`. -/
structure StatsResult where
  totalScans : Nat
  todayScans : Nat
  yesterdayScans : Nat
  uniqueUids : Nat
  lastScan : Option String
deriving DecidableEq

/-- `getStats`: the source loops over its five queries and wraps **each one**
in its own `try`/`catch`; a failed read is replaced by the default `0`
(`null` for `lastScan`) instead of rejecting.  Each argument is the outcome
of one storage read. -/
def getStats (totalRes todayRes yesterdayRes uniqueRes : Except DbError Nat)
    (lastRes : Except DbError (Option String)) : StatsResult :=
  { totalScans := match totalRes with | .ok n => n | .error _ => 0
    todayScans := match todayRes with | .ok n => n | .error _ => 0
    yesterdayScans := match yesterdayRes with | .ok n => n | .error _ => 0
    uniqueUids := match uniqueRes with | .ok n => n | .error _ => 0
    lastScan := match lastRes with | .ok v => v | .error _ => none }

/-- A sample admitted record for concrete witnesses. -/
def sampleRecord : ScanRecord :=
  { scan_id := "scan_1760184000000_a1b2c3d4", uid := "TEST12345678",
    campaign_id := "DEMO01", timestamp := "2025-10-11T12:00:00.000Z",
    checksum := "00", verified := true }

/-- A second sample record, admitted later, with a distinct `scan_id`. -/
def sampleRecordLater : ScanRecord :=
  { scan_id := "scan_1760184600000_e5f6a7b8", uid := "TEST12345678",
    campaign_id := "DEMO01", timestamp := "2025-10-11T12:10:00.000Z",
    checksum := "01", verified := true }

/-! ## ISO-8601 UTC timestamps (`new Date().toISOString()`)

The `POST /scan` handler stamps each record with
`new Date().toISOString()`, the fixed 24-character
`YYYY-MM-DDTHH:mm:ss.sssZ` rendering of a UTC instant (for years up to
9999).  We model the instant by its calendar fields and prove that on this
fixed format, lexicographic string comparison coincides with chronological
order — the fact the ledger's string-based `ORDER BY` and range filters
rely on. -/

/-- A UTC instant, by calendar fields. -/
structure DateTimeUTC where
  year : Nat
  month : Nat
  day : Nat
  hour : Nat
  minute : Nat
  second : Nat
  millisecond : Nat
deriving DecidableEq

/-- The field ranges `Date` guarantees (years restricted to four digits,
where `toISOString` uses the plain format). -/
def validDT (t : DateTimeUTC) : Prop :=
  t.year ≤ 9999 ∧ 1 ≤ t.month ∧ t.month ≤ 12 ∧ 1 ≤ t.day ∧ t.day ≤ 31 ∧
  t.hour ≤ 23 ∧ t.minute ≤ 59 ∧ t.second ≤ 59 ∧ t.millisecond ≤ 999

instance (t : DateTimeUTC) : Decidable (validDT t) :=
  inferInstanceAs (Decidable (t.year ≤ 9999 ∧ 1 ≤ t.month ∧ t.month ≤ 12 ∧ 1 ≤ t.day ∧
    t.day ≤ 31 ∧ t.hour ≤ 23 ∧ t.minute ≤ 59 ∧ t.second ≤ 59 ∧ t.millisecond ≤ 999))

/-- Fixed-width decimal rendering, most significant digit first (the
zero-padded fields of `toISOString`). -/
def padNum : Nat → Nat → List Char
  | 0, _ => []
  | w + 1, n => Nat.digitChar (n / 10 ^ w) :: padNum w (n % 10 ^ w)

/-- The character list of `toISOString`: `YYYY-MM-DDTHH:mm:ss.sssZ`. -/
def isoChars (t : DateTimeUTC) : List Char :=
  padNum 4 t.year ++ '-' ::
    (padNum 2 t.month ++ '-' ::
      (padNum 2 t.day ++ 'T' ::
        (padNum 2 t.hour ++ ':' ::
          (padNum 2 t.minute ++ ':' ::
            (padNum 2 t.second ++ '.' ::
              (padNum 3 t.millisecond ++ ['Z']))))))

/-- `new Date().toISOString()`. -/
def toISOString (t : DateTimeUTC) : String := String.mk (isoChars t)

/-- Chronological order on UTC instants: lexicographic on the calendar
fields from most to least significant. -/
def chronoLt (a b : DateTimeUTC) : Prop :=
  a.year < b.year ∨ (a.year = b.year ∧
    (a.month < b.month ∨ (a.month = b.month ∧
      (a.day < b.day ∨ (a.day = b.day ∧
        (a.hour < b.hour ∨ (a.hour = b.hour ∧
          (a.minute < b.minute ∨ (a.minute = b.minute ∧
            (a.second < b.second ∨ (a.second = b.second ∧
              a.millisecond < b.millisecond)))))))))))

/-- The record built and persisted by the `POST /scan` handler:
`timestamp = new Date().toISOString()`, checksum over
`(uid, timestamp, campaign_id)`, `verified = true`. -/
def postScanRecord (uid campaignId : String) (now : DateTimeUTC)
    (scanId secretKey : String) : ScanRecord :=
  { scan_id := scanId, uid := uid, campaign_id := campaignId,
    timestamp := toISOString now,
    checksum := generateAEIChecksum uid (toISOString now) campaignId secretKey,
    verified := true }

/-! ## Instants and the unsynchronized admission race (src/routes/api.js)

`moment(timestamp)` and `Date.now()` interpret instants as milliseconds
since the Unix epoch; the conversion from calendar fields uses the standard
civil-calendar day count. -/

/-- Days from 1970-01-01 to the given civil date (proleptic Gregorian),
the standard era-based algorithm with floor division. -/
def daysFromCivil (y m d : Int) : Int :=
  let y2 := if m ≤ 2 then y - 1 else y
  let era := y2 / 400
  let yoe := y2 - era * 400
  let mp := if 2 < m then m - 3 else m + 9
  let doy := (153 * mp + 2) / 5 + d - 1
  let doe := yoe * 365 + yoe / 4 - yoe / 100 + doy
  era * 146097 + doe - 719468

/-- Milliseconds since the Unix epoch of a UTC instant. -/
def epochMs (t : DateTimeUTC) : Int :=
  daysFromCivil t.year t.month t.day * 86400000 +
    t.hour * 3600000 + t.minute * 60000 + t.second * 1000 + t.millisecond

/-- Decimal value of a digit list. -/
def digitsVal (l : List Char) : Nat := l.foldl (fun acc c => acc * 10 + (c.toNat - 48)) 0

/-- The number written at a fixed slice of a character list. -/
def sliceNat (l : List Char) (start len : Nat) : Nat := digitsVal ((l.drop start).take len)

/-- `moment(isoString)`: read the calendar fields back from the fixed
`YYYY-MM-DDTHH:mm:ss.sssZ` positions. -/
def parseIso (s : String) : DateTimeUTC :=
  let cs := s.data
  { year := sliceNat cs 0 4, month := sliceNat cs 5 2, day := sliceNat cs 8 2,
    hour := sliceNat cs 11 2, minute := sliceNat cs 14 2, second := sliceNat cs 17 2,
    millisecond := sliceNat cs 20 3 }

/-- The instant of a stored ISO timestamp, in epoch milliseconds. -/
def parseIsoMs (s : String) : Int := epochMs (parseIso s)

/-- The anti-fraud middleware evaluated against a ledger snapshot `db`:
`getLastScanTime(uid)` and `getDailyScanCount(uid, today)` are read from
`db`, `now` is the request's clock, `today` its UTC date. -/
def admissionDecision (cfg : AntifraudConfig) (db : List ScanRecord) (uid : String)
    (now : DateTimeUTC) : FraudDecision :=
  antiFraudDecision cfg ((getLastScanTime db uid).map parseIsoMs) (epochMs now)
    (getDailyScanCount db uid ((isoChars now).take 10))

/-- Commit of an admitted scan: `insertScan`, keeping the old ledger on a
constraint error. -/
def applyInsert (db : List ScanRecord) (r : ScanRecord) : List ScanRecord :=
  match insertScan db r with
  | .ok db' => db'
  | .error _ => db

/-- Two concurrent `POST /scan` requests for the same identifier where both
anti-fraud reads happen before either write (the racy interleaving the
unsynchronized read-evaluate-write sequence allows): both decisions are
taken against the same snapshot `db0`, then both commits apply. -/
def raceBothRead (cfg : AntifraudConfig) (db0 : List ScanRecord)
    (uid campaignId : String) (now1 now2 : DateTimeUTC) (id1 id2 secretKey : String) :
    FraudDecision × FraudDecision × List ScanRecord :=
  let d1 := admissionDecision cfg db0 uid now1
  let d2 := admissionDecision cfg db0 uid now2
  let db1 := if d1 = .proceed then applyInsert db0 (postScanRecord uid campaignId now1 id1 secretKey) else db0
  let db2 := if d2 = .proceed then applyInsert db1 (postScanRecord uid campaignId now2 id2 secretKey) else db1
  (d1, d2, db2)

/-- The serialized execution of the same two requests: the second request's
anti-fraud reads see the first request's committed record. -/
def serialSecond (cfg : AntifraudConfig) (db0 : List ScanRecord)
    (uid campaignId : String) (now1 now2 : DateTimeUTC) (id1 secretKey : String) :
    FraudDecision :=
  let d1 := admissionDecision cfg db0 uid now1
  let db1 := if d1 = .proceed then applyInsert db0 (postScanRecord uid campaignId now1 id1 secretKey) else db0
  admissionDecision cfg db1 uid now2

/-! ## Theorems -/

/-- The regex class `[A-Za-z0-9]` is exactly the ASCII-alphanumeric test. -/
theorem isUidChar_eq_isAlphanum (c : Char) : isUidChar c = c.isAlphanum := by
  simp only [isUidChar, Char.isAlphanum, Char.isAlpha, Char.isDigit, Char.isUpper,
    Char.isLower, Char.le_def, ge_iff_le, Bool.or_assoc]
  rfl

/-- **C1.** Whenever the most recent admitted record for the identifier is
strictly less than the configured cooldown window old at evaluation time, the
anti-fraud middleware answers `COOLDOWN_ACTIVE` carrying the configured
`cooldownMinutes` (not the elapsed time), for every daily-scan count — in
particular also when the daily limit is simultaneously violated, because the
cooldown check runs strictly before the daily-limit check. -/
theorem antiFraud_cooldown_before_daily_limit (cfg : AntifraudConfig)
    (lastScan now : Int) (dailyScanCount : Nat)
    (hpast : lastScan ≤ now)
    (helapsed : now - lastScan < (cfg.cooldownMinutes : Int) * 60000) :
    antiFraudDecision cfg (some lastScan) now dailyScanCount =
      .cooldownActive cfg.cooldownMinutes := by
  have h0 : (0 : Int) ≤ now - lastScan := by omega
  have ht : Int.tdiv (now - lastScan) 60000 = (now - lastScan) / 60000 :=
    Int.tdiv_eq_ediv h0 (by norm_num)
  have hlt : (now - lastScan) / 60000 < (cfg.cooldownMinutes : Int) := by omega
  simp [antiFraudDecision, isWithinCooldown, ht, hlt]

/-- Witness for `antiFraud_cooldown_before_daily_limit`: identifier last seen
one minute ago, daily count 1000 (far above the default limit 100) — the
decision is still `COOLDOWN_ACTIVE 5`. -/
theorem antiFraud_cooldown_before_daily_limit_witness :
    (0 : Int) ≤ 60000 ∧
    (60000 : Int) - 0 < (defaultConfig.cooldownMinutes : Int) * 60000 ∧
    antiFraudDecision defaultConfig (some 0) 60000 1000 = .cooldownActive 5 :=
  ⟨by norm_num, by norm_num [defaultConfig],
    antiFraud_cooldown_before_daily_limit defaultConfig 0 60000 1000
      (by norm_num) (by norm_num [defaultConfig])⟩

/-- **C2.** When the most recent admitted record is *exactly* the cooldown
window old (elapsed equals the window), `isWithinCooldown` is `false` (the
comparison is a strict less-than) and the middleware never answers
`COOLDOWN_ACTIVE`: the boundary is open on the blocking side. -/
theorem cooldown_boundary_open (cfg : AntifraudConfig) (lastScan now : Int)
    (dailyScanCount : Nat)
    (hboundary : now - lastScan = (cfg.cooldownMinutes : Int) * 60000) :
    isWithinCooldown (some lastScan) now cfg.cooldownMinutes = false ∧
    ∀ m, antiFraudDecision cfg (some lastScan) now dailyScanCount ≠ .cooldownActive m := by
  have h0 : (0 : Int) ≤ now - lastScan := by omega
  have ht : Int.tdiv (now - lastScan) 60000 = (now - lastScan) / 60000 :=
    Int.tdiv_eq_ediv h0 (by norm_num)
  have heq : (now - lastScan) / 60000 = (cfg.cooldownMinutes : Int) := by omega
  have hfalse : isWithinCooldown (some lastScan) now cfg.cooldownMinutes = false := by
    simp [isWithinCooldown, ht, heq]
  refine ⟨hfalse, fun m => ?_⟩
  simp only [antiFraudDecision, hfalse, Bool.false_eq_true, if_false]
  split <;> simp

/-- Witness for `cooldown_boundary_open`: the last record is exactly five
minutes (300000 ms) old under the default configuration; the decision is not
a cooldown rejection. -/
theorem cooldown_boundary_open_witness :
    (300000 : Int) - 0 = (defaultConfig.cooldownMinutes : Int) * 60000 ∧
    (isWithinCooldown (some 0) 300000 defaultConfig.cooldownMinutes = false ∧
      ∀ m, antiFraudDecision defaultConfig (some 0) 300000 3 ≠ .cooldownActive m) :=
  ⟨by norm_num [defaultConfig],
    cooldown_boundary_open defaultConfig 0 300000 3 (by norm_num [defaultConfig])⟩

/-- **C3.** The identifier validator accepts a string iff it is 8 to 16
characters long and every character is an ASCII letter or digit; in
particular it rejects every string of length below 8 or above 16 and every
string containing a non-alphanumeric character. -/
theorem isValidUID_iff (uid : String) :
    isValidUID uid = true ↔
      8 ≤ uid.length ∧ uid.length ≤ 16 ∧ ∀ c ∈ uid.data, c.isAlphanum = true := by
  simp [isValidUID, isUidChar_eq_isAlphanum, and_assoc]

/-! ## Crypto lemmas -/

/-- One word contributes four bytes. -/
theorem length_wordBytes (w : Nat) : (sha256.wordBytes w).length = 4 := rfl

/-- Every byte produced by `wordBytes` is below 256. -/
theorem mem_wordBytes_lt {w b : Nat} (hb : b ∈ sha256.wordBytes w) : b < 256 := by
  simp only [sha256.wordBytes, List.mem_cons, List.not_mem_nil, or_false] at hb
  rcases hb with h | h | h | h <;> omega

/-- A SHA-256 digest is 32 bytes. -/
theorem sha256_length (msg : List Nat) : (sha256 msg).length = 32 := by
  simp [sha256, length_wordBytes]

/-- Every byte of a SHA-256 digest is below 256. -/
theorem sha256_lt (msg : List Nat) : ∀ b ∈ sha256 msg, b < 256 := by
  intro b hb
  simp only [sha256, List.mem_flatMap] at hb
  obtain ⟨w, _hw, hb⟩ := hb
  exact mem_wordBytes_lt hb

/-- An HMAC-SHA256 digest is 32 bytes. -/
theorem hmacSha256_length (key msg : List Nat) : (hmacSha256 key msg).length = 32 := by
  simp only [hmacSha256]
  exact sha256_length _

/-- Every byte of an HMAC-SHA256 digest is below 256. -/
theorem hmacSha256_lt (key msg : List Nat) : ∀ b ∈ hmacSha256 key msg, b < 256 := by
  intro b hb
  simp only [hmacSha256] at hb
  exact sha256_lt _ b hb

/-- Hex encoding doubles the length. -/
theorem bytesToHex_length (bs : List Nat) : (bytesToHex bs).length = 2 * bs.length := by
  induction bs with
  | nil => rfl
  | cons b rest ih =>
    simp only [bytesToHex, List.flatMap_cons, List.length_append, List.length_cons,
      List.length_nil] at ih ⊢
    omega

/-- `Nat.digitChar` of a value below 16 is a hex digit. -/
theorem isHexDigitB_digitChar : ∀ n, n < 16 → isHexDigitB (Nat.digitChar n) = true := by decide

/-- `hexVal` inverts `Nat.digitChar` on values below 16. -/
theorem hexVal_digitChar : ∀ n, n < 16 → hexVal (Nat.digitChar n) = n := by decide

/-- Node's hex decoding inverts hex encoding of genuine bytes. -/
theorem bufferFromHex_bytesToHex :
    ∀ bs : List Nat, (∀ b ∈ bs, b < 256) → bufferFromHex (bytesToHex bs) = bs := by
  intro bs h
  induction bs with
  | nil => rfl
  | cons b rest ih =>
    have hb : b < 256 := h b (List.mem_cons_self _ _)
    have h1 : b / 16 < 16 := by omega
    have h2 : b % 16 < 16 := by omega
    have hrest := ih fun x hx => h x (List.mem_cons_of_mem _ hx)
    show bufferFromHex (Nat.digitChar (b / 16) :: Nat.digitChar (b % 16) :: bytesToHex rest) =
      b :: rest
    simp only [bufferFromHex, isHexDigitB_digitChar _ h1, isHexDigitB_digitChar _ h2,
      hexVal_digitChar _ h1, hexVal_digitChar _ h2, Bool.and_self, if_true, hrest]
    have : b / 16 * 16 + b % 16 = b := by omega
    rw [this]

/-- Every character of a hex encoding of genuine bytes is a hex digit. -/
theorem bytesToHex_hex (bs : List Nat) (h : ∀ b ∈ bs, b < 256) :
    ∀ c ∈ bytesToHex bs, isHexDigitB c = true := by
  intro c hc
  simp only [bytesToHex, List.mem_flatMap] at hc
  obtain ⟨b, hb, hc⟩ := hc
  have hlt := h b hb
  simp only [List.mem_cons, List.not_mem_nil, or_false] at hc
  rcases hc with rfl | rfl
  · exact isHexDigitB_digitChar _ (by omega)
  · exact isHexDigitB_digitChar _ (by omega)

/-- The expected checksum always hex decodes to exactly 32 bytes. -/
theorem bufferFromHex_checksum_length (uid timestamp campaignId secretKey : String) :
    (bufferFromHex (generateAEIChecksum uid timestamp campaignId secretKey).data).length = 32 := by
  show (bufferFromHex
    (bytesToHex (hmacSha256 (strBytes secretKey)
      (strBytes (uid ++ timestamp ++ campaignId))))).length = 32
  rw [bufferFromHex_bytesToHex _ (hmacSha256_lt _ _), hmacSha256_length]

/-- `verifyAEIChecksum` returns a boolean exactly when the provided string
hex decodes to 32 bytes; otherwise `timingSafeEqual` throws. -/
theorem verify_isOk_iff (uid timestamp campaignId provided secretKey : String) :
    (verifyAEIChecksum uid timestamp campaignId provided secretKey).isOk = true ↔
      (bufferFromHex provided.data).length = 32 := by
  have hexp := bufferFromHex_checksum_length uid timestamp campaignId secretKey
  by_cases h : (bufferFromHex provided.data).length = 32
  · simp [verifyAEIChecksum, hexp, h, Except.isOk, Except.toBool]
  · have h' : ¬((32 : Nat) = (bufferFromHex provided.data).length) := fun hh => h hh.symm
    simp [verifyAEIChecksum, hexp, h, h', Except.isOk, Except.toBool]

/-- An all-hex character list of even length decodes to half as many bytes. -/
theorem bufferFromHex_length_allHex :
    ∀ (n : Nat) (l : List Char), l.length = 2 * n → (∀ c ∈ l, isHexDigitB c = true) →
      (bufferFromHex l).length = n := by
  intro n
  induction n with
  | zero =>
    intro l hl _
    have : l = [] := List.eq_nil_of_length_eq_zero (by omega)
    subst this
    rfl
  | succ m ih =>
    intro l hl hhex
    rcases l with _ | ⟨c1, _ | ⟨c2, rest⟩⟩
    · simp at hl
    · simp at hl; omega
    · have h1 := hhex c1 (by simp)
      have h2 := hhex c2 (by simp)
      have hr : rest.length = 2 * m := by
        simp only [List.length_cons] at hl
        omega
      simp only [bufferFromHex, h1, h2, Bool.and_self, if_true, List.length_cons]
      rw [ih rest hr fun x hx => hhex x (by simp [hx])]

set_option maxRecDepth 40000 in
/-- Known-answer tests pinning the embedded primitives to FIPS 180-4 /
RFC 4231 reference values: `SHA256("abc")` and
`HMAC-SHA256("key", "The quick brown fox jumps over the lazy dog")`. -/
theorem sha256_known_answers :
    String.mk (bytesToHex (sha256 (strBytes "abc"))) =
      "ba7816bf8f01cfea414140de5dae2223b00361a396177a9cb410ff61f20015ad" ∧
    String.mk (bytesToHex (hmacSha256 (strBytes "key")
        (strBytes "The quick brown fox jumps over the lazy dog"))) =
      "f7bc83f430538424b13298e6aa6fb143ef4d59a14946175997479dbc2d1a3cd8" :=
  ⟨by decide, by decide⟩

/-- **C4.** The integrity codec's seal is a deterministic pure function: it
is the keyed MAC (HMAC-SHA256, hex encoded) of the concatenation
`identifier ++ timestamp ++ campaign` in that order with the secret as key;
the digest has fixed length 64 and consists of hex digits, and two calls on
identical inputs always produce identical digests. -/
theorem generateAEIChecksum_spec (uid timestamp campaignId secretKey : String) :
    generateAEIChecksum uid timestamp campaignId secretKey =
      hmacSha256Hex secretKey (uid ++ timestamp ++ campaignId) ∧
    (generateAEIChecksum uid timestamp campaignId secretKey).length = 64 ∧
    (∀ c ∈ (generateAEIChecksum uid timestamp campaignId secretKey).data,
      isHexDigitB c = true) ∧
    (∀ uid2 ts2 cid2 key2, uid = uid2 → timestamp = ts2 → campaignId = cid2 →
      secretKey = key2 →
      generateAEIChecksum uid timestamp campaignId secretKey =
        generateAEIChecksum uid2 ts2 cid2 key2) := by
  refine ⟨rfl, ?_, ?_, ?_⟩
  · show (bytesToHex (hmacSha256 (strBytes secretKey)
      (strBytes (uid ++ timestamp ++ campaignId)))).length = 64
    rw [bytesToHex_length, hmacSha256_length]
  · exact bytesToHex_hex _ (hmacSha256_lt _ _)
  · rintro _ _ _ _ rfl rfl rfl rfl
    rfl

/-- Witness for `generateAEIChecksum_spec`: determinism hypotheses discharged
at a concrete input. -/
theorem generateAEIChecksum_spec_witness :
    generateAEIChecksum "TEST12345678" "2025-10-11T12:00:00.000Z" "DEMO01"
        "neocard-aei-hmac-secret-key-2024" =
      generateAEIChecksum "TEST12345678" "2025-10-11T12:00:00.000Z" "DEMO01"
        "neocard-aei-hmac-secret-key-2024" :=
  (generateAEIChecksum_spec "TEST12345678" "2025-10-11T12:00:00.000Z" "DEMO01"
    "neocard-aei-hmac-secret-key-2024").2.2.2 _ _ _ _ rfl rfl rfl rfl

/-- **C9 (amended).** `verifyAEIChecksum` is not total over a boolean
contract: it throws (`RangeError` from `timingSafeEqual`) exactly when the
provided checksum's hex decoding — Node decodes complete hex pairs from the
left and silently drops a trailing invalid region — differs in length from
the 32-byte expected digest, and returns a boolean exactly when that
decoding is 32 bytes.  Every well-formed 64-hex-character input therefore
gets a boolean, but the converse fails: some malformed inputs (64 hex digits
followed by junk) also return a boolean rather than throwing. -/
theorem verifyAEIChecksum_domain (uid timestamp campaignId provided secretKey : String) :
    ((bufferFromHex provided.data).length ≠ 32 →
      verifyAEIChecksum uid timestamp campaignId provided secretKey =
        .error .rangeError) ∧
    ((bufferFromHex provided.data).length = 32 →
      ∃ result, verifyAEIChecksum uid timestamp campaignId provided secretKey =
        .ok result) ∧
    (provided.length = 64 → (∀ c ∈ provided.data, isHexDigitB c = true) →
      (bufferFromHex provided.data).length = 32) := by
  have hexp := bufferFromHex_checksum_length uid timestamp campaignId secretKey
  refine ⟨fun h => ?_, fun h => ?_, fun hlen hhex => ?_⟩
  · have h' : ¬((32 : Nat) = (bufferFromHex provided.data).length) := fun hh => h hh.symm
    simp [verifyAEIChecksum, hexp, h']
  · refine ⟨bufferFromHex (generateAEIChecksum uid timestamp campaignId secretKey).data ==
      bufferFromHex provided.data, ?_⟩
    simp [verifyAEIChecksum, hexp, h]
  · exact bufferFromHex_length_allHex 32 provided.data hlen hhex

/-- Witness for `verifyAEIChecksum_domain`: a 2-character checksum decodes to
one byte, so verification throws; a well-formed 64-hex string decodes to 32
bytes. -/
theorem verifyAEIChecksum_domain_witness :
    ((bufferFromHex ("00" : String).data).length ≠ 32 ∧
      verifyAEIChecksum "TEST12345678" "2025-10-11T12:00:00.000Z" "DEMO01" "00"
          "neocard-aei-hmac-secret-key-2024" = .error .rangeError) ∧
    (("0123456789abcdef0123456789abcdef0123456789abcdef0123456789abcdef" :
        String).length = 64 ∧
      (bufferFromHex ("0123456789abcdef0123456789abcdef0123456789abcdef0123456789abcdef" :
        String).data).length = 32) :=
  ⟨⟨by decide,
    (verifyAEIChecksum_domain "TEST12345678" "2025-10-11T12:00:00.000Z" "DEMO01" "00"
      "neocard-aei-hmac-secret-key-2024").1 (by decide)⟩,
   ⟨by decide,
    (verifyAEIChecksum_domain "TEST12345678" "2025-10-11T12:00:00.000Z" "DEMO01"
        "0123456789abcdef0123456789abcdef0123456789abcdef0123456789abcdef"
        "neocard-aei-hmac-secret-key-2024").2.2 (by decide) (by decide)⟩⟩

/-- **C9, counterexample to the claim as stated.** The 65-character string of
64 `'0'`s followed by `'z'` is not a well-formed 64-hex-character input, yet
`verifyAEIChecksum` returns a boolean for it instead of throwing: Node's
`Buffer.from(…, 'hex')` silently drops the dangling `'z'` and yields 32
bytes. -/
theorem verifyAEIChecksum_ok_on_malformed :
    (verifyAEIChecksum "TEST12345678" "2025-10-11T12:00:00.000Z" "DEMO01"
        (String.mk (List.replicate 64 '0' ++ ['z']))
        "neocard-aei-hmac-secret-key-2024").isOk = true ∧
    ¬((String.mk (List.replicate 64 '0' ++ ['z'])).length = 64 ∧
      ∀ c ∈ (String.mk (List.replicate 64 '0' ++ ['z'])).data, isHexDigitB c = true) := by
  constructor
  · rw [verify_isOk_iff]
    decide
  · decide

/-- Nothing is below the empty list. -/
theorem not_list_lt_nil (xs : List Char) : ¬ xs < ([] : List Char) := fun h => nomatch h

/-- Characterization of strict lexicographic order on `cons`. -/
theorem cons_lt_cons_iff (x y : Char) (xs ys : List Char) :
    x :: xs < y :: ys ↔ x < y ∨ (x = y ∧ xs < ys) := by
  constructor
  · intro h
    cases h with
    | rel h => exact Or.inl h
    | cons h => exact Or.inr ⟨rfl, h⟩
  · intro h
    rcases h with h | ⟨rfl, h⟩
    · exact List.Lex.rel h
    · exact List.Lex.cons h

/-- `listCharLeB` decides the negation of the reverse strict order. -/
theorem listCharLeB_iff : ∀ xs ys : List Char, listCharLeB xs ys = true ↔ ¬ ys < xs
  | [], ys => by simp [listCharLeB, not_list_lt_nil ys]
  | x :: xs, [] => by
    simp only [listCharLeB, Bool.false_eq_true, false_iff, not_not]
    exact List.Lex.nil
  | x :: xs, y :: ys => by
    simp only [listCharLeB, cons_lt_cons_iff]
    rcases lt_trichotomy x y with h | h | h
    · simp [h, asymm h, ne_of_gt h, not_lt_of_gt h]
    · subst h
      simp [lt_irrefl, listCharLeB_iff xs ys]
    · simp [h, not_lt_of_gt h]

/-- `strLeB` agrees with Mathlib's linear order on `String`. -/
theorem strLeB_iff (a b : String) : strLeB a b = true ↔ a ≤ b := by
  rw [String.le_iff_toList_le, ← not_lt]
  exact listCharLeB_iff a.data b.data

/-! ## Ledger theorems -/

/-- **C5.** `insertScan` fails with the duplicate-id error when a record
with the same `scan_id` already exists, otherwise persists the record and
succeeds; consequently `scan_id`-uniqueness of the ledger is preserved by
every successful append. -/
theorem insertScan_spec (db : List ScanRecord) (r : ScanRecord) :
    ((∃ x ∈ db, x.scan_id = r.scan_id) → insertScan db r = .error .uniqueViolation) ∧
    ((∀ x ∈ db, x.scan_id ≠ r.scan_id) → insertScan db r = .ok (db ++ [r])) ∧
    (∀ db', insertScan db r = .ok db' →
      ((db.map fun x => x.scan_id).Nodup → (db'.map fun x => x.scan_id).Nodup)) := by
  refine ⟨fun h => ?_, fun h => ?_, fun db' hok hnodup => ?_⟩
  · have hc : (db.any fun x => x.scan_id == r.scan_id) = true := by
      simp only [List.any_eq_true, beq_iff_eq]
      obtain ⟨x, hx, he⟩ := h
      exact ⟨x, hx, he⟩
    simp [insertScan, hc]
  · have hc : (db.any fun x => x.scan_id == r.scan_id) = false := by
      simp only [List.any_eq_false, beq_iff_eq]
      exact h
    simp [insertScan, hc]
  · by_cases hc : (db.any fun x => x.scan_id == r.scan_id) = true
    · simp [insertScan, hc] at hok
    · rw [Bool.not_eq_true] at hc
      simp only [insertScan, hc, Bool.false_eq_true, if_false, Except.ok.injEq] at hok
      subst hok
      rw [List.map_append, List.nodup_append]
      refine ⟨hnodup, List.nodup_singleton _, fun a ha hb => ?_⟩
      simp only [List.any_eq_false, beq_iff_eq] at hc
      simp only [List.map_cons, List.map_nil, List.mem_singleton] at hb
      simp only [List.mem_map] at ha
      obtain ⟨x, hx, rfl⟩ := ha
      exact hc x hx (hb ▸ rfl)

/-- Witness for `insertScan_spec`: inserting a fresh record succeeds,
re-inserting the same `scan_id` is rejected, and uniqueness is preserved. -/
theorem insertScan_spec_witness :
    ((∀ x ∈ ([] : List ScanRecord), x.scan_id ≠ sampleRecord.scan_id) ∧
      insertScan [] sampleRecord = .ok [sampleRecord]) ∧
    ((∃ x ∈ [sampleRecord], x.scan_id = sampleRecord.scan_id) ∧
      insertScan [sampleRecord] sampleRecord = .error .uniqueViolation) :=
  ⟨⟨by simp, (insertScan_spec [] sampleRecord).2.1 (by simp)⟩,
   ⟨⟨sampleRecord, by simp⟩,
    (insertScan_spec [sampleRecord] sampleRecord).1 ⟨sampleRecord, by simp⟩⟩⟩

/-- The descending-timestamp comparison is total. -/
theorem timestampGe_total (a b : ScanRecord) : timestampGe a b ∨ timestampGe b a := by
  rcases le_total b.timestamp a.timestamp with h | h
  · exact Or.inl ((strLeB_iff _ _).mpr h)
  · exact Or.inr ((strLeB_iff _ _).mpr h)

/-- The descending-timestamp comparison is transitive. -/
theorem timestampGe_trans (a b c : ScanRecord) (h1 : timestampGe a b) (h2 : timestampGe b c) :
    timestampGe a c :=
  (strLeB_iff _ _).mpr (le_trans ((strLeB_iff _ _).mp h2) ((strLeB_iff _ _).mp h1))

/-- The boolean row condition agrees with the specification-level one. -/
theorem matchesB_iff (filters : ScanFilters) (r : ScanRecord) :
    matchesB filters r = true ↔ matchesFilters filters r := by
  obtain ⟨fu, fc, fs, fe, fl, fo⟩ := filters
  cases fu <;> cases fc <;> cases fs <;> cases fe <;>
    simp [matchesB, matchesFilters, and_assoc, strLeB_iff]

/-- The sequentially applied `WHERE` clauses equal one filter by the
conjunction of all conditions. -/
theorem filteredScans_eq (db : List ScanRecord) (filters : ScanFilters) :
    filteredScans db filters = db.filter fun r => matchesB filters r := by
  obtain ⟨fu, fc, fs, fe, fl, fo⟩ := filters
  cases fu <;> cases fc <;> cases fs <;> cases fe <;>
    simp [filteredScans, matchesB, List.filter_filter, Bool.and_comm, Bool.and_assoc,
      Bool.and_left_comm]

/-- **C6 (amended).** For every combination of the optional filters in which
`offset` is only supplied alongside `limit`, `getScans` returns exactly the
records matching all supplied filters (timestamp bounds inclusive on both
ends), ordered by timestamp descending, with `offset` then `limit` applied
after filtering; but when `offset` is supplied without `limit` the generated
SQL (`… ORDER BY timestamp DESC OFFSET ?`) is invalid and the query fails
instead of returning records. -/
theorem getScans_spec (db : List ScanRecord) (filters : ScanFilters) :
    (∀ r, matchesB filters r = true ↔ matchesFilters filters r) ∧
    (filters.limit = none → ∀ o, filters.offset = some o →
      getScans db filters = .error .offsetWithoutLimit) ∧
    (∀ rows, getScans db filters = .ok rows →
      ∃ all, all.Perm (db.filter fun r => matchesB filters r) ∧
        List.Pairwise (fun a b => b.timestamp ≤ a.timestamp) all ∧
        rows = (all.drop (filters.offset.getD 0)).take (filters.limit.getD all.length)) := by
  refine ⟨fun r => matchesB_iff filters r, fun hl o ho => ?_, fun rows hrows => ?_⟩
  · simp [getScans, hl, ho]
  · haveI : IsTotal ScanRecord fun a b => strLeB b.timestamp a.timestamp = true :=
      ⟨timestampGe_total⟩
    haveI : IsTrans ScanRecord fun a b => strLeB b.timestamp a.timestamp = true :=
      ⟨timestampGe_trans⟩
    refine ⟨sortByTimestampDesc (filteredScans db filters), ?_, ?_, ?_⟩
    · rw [← filteredScans_eq]
      exact List.perm_insertionSort _ _
    · exact (List.sorted_insertionSort _ _).imp fun h => (strLeB_iff _ _).mp h
    · rcases hl : filters.limit with _ | l <;> rcases ho : filters.offset with _ | o
      · simp only [getScans, hl, ho, Except.ok.injEq] at hrows
        simp only [Option.getD_none, List.drop_zero]
        rw [← hrows, List.take_length]
      · simp [getScans, hl, ho] at hrows
      · simp only [getScans, hl, ho, Except.ok.injEq] at hrows
        simp only [Option.getD_none, Option.getD_some, List.drop_zero]
        exact hrows.symm
      · simp only [getScans, hl, ho, Except.ok.injEq] at hrows
        simp only [Option.getD_some]
        exact hrows.symm

/-- Witness for `getScans_spec`: concrete two-record ledger, no filters —
the query succeeds with the records in descending timestamp order, and the
characterization applies. -/
theorem getScans_spec_witness :
    getScans [sampleRecord, sampleRecordLater] {} = .ok [sampleRecordLater, sampleRecord] ∧
    ∃ all, all.Perm ([sampleRecord, sampleRecordLater].filter fun r => matchesB {} r) ∧
      List.Pairwise (fun a b : ScanRecord => b.timestamp ≤ a.timestamp) all ∧
      [sampleRecordLater, sampleRecord] =
        (all.drop ((({} : ScanFilters)).offset.getD 0)).take
          ((({} : ScanFilters)).limit.getD all.length) :=
  ⟨by rfl,
   (getScans_spec [sampleRecord, sampleRecordLater] {}).2.2 [sampleRecordLater, sampleRecord]
     (by rfl)⟩

/-- **C6, counterexample to the claim as stated.** With the single filter
`offset = 1` (and no `limit`), `getScans` does not return the matching
records minus the first: the generated statement `SELECT * FROM scans WHERE
1=1 ORDER BY timestamp DESC OFFSET ?` is a SQLite syntax error, so the
query fails. -/
theorem getScans_offset_without_limit :
    getScans [sampleRecord, sampleRecordLater] { offset := some 1 } =
      .error .offsetWithoutLimit := rfl

/-- **C7 (amended).** During fraud-policy evaluation every storage read
failure is propagated to the caller as the error itself (never converted
into an admit, a policy rejection, or a default): the conjuncts cover every
reachable failing read — the last-scan read failing (for any daily-count
outcome), and the daily-count read failing both for a fresh identifier and
for one whose last scan lies outside the cooldown window (when the last
scan is inside the window the middleware rejects before reading the daily
count, so no other failing-read configuration exists).  By contrast
`getStats` converts each failed statistics read into a default value (a
zero count, `null` for the last scan) instead of propagating it. -/
theorem storage_error_propagation :
    (∀ cfg now e dres, antiFraudCheckE cfg (.error e) now dres = .error e) ∧
    (∀ cfg now e, antiFraudCheckE cfg (.ok none) now (.error e) = .error e) ∧
    (∀ cfg t now e, isWithinCooldown (some t) now cfg.cooldownMinutes = false →
      antiFraudCheckE cfg (.ok (some t)) now (.error e) = .error e) ∧
    (∀ e1 e2 e3 e4 e5, getStats (.error e1) (.error e2) (.error e3) (.error e4) (.error e5) =
      { totalScans := 0, todayScans := 0, yesterdayScans := 0, uniqueUids := 0,
        lastScan := none }) := by
  refine ⟨fun cfg now e dres => rfl, fun cfg now e => rfl, fun cfg t now e h => ?_,
    fun e1 e2 e3 e4 e5 => rfl⟩
  simp [antiFraudCheckE, h]

/-- Witness for `storage_error_propagation`: a failing daily-count read
propagates `ioError`, both for a fresh identifier (no previous scan) and for
an identifier whose last scan is an hour old. -/
theorem storage_error_propagation_witness :
    antiFraudCheckE defaultConfig (.ok none) 3600000 (.error .ioError) = .error .ioError ∧
    (isWithinCooldown (some 0) 3600000 defaultConfig.cooldownMinutes = false ∧
      antiFraudCheckE defaultConfig (.ok (some 0)) 3600000 (.error .ioError) =
        .error .ioError) :=
  ⟨storage_error_propagation.2.1 defaultConfig 3600000 .ioError,
   ⟨by decide,
    storage_error_propagation.2.2.1 defaultConfig 0 3600000 .ioError (by decide)⟩⟩

/-- **C7, counterexample to the claim as stated.** A failing read in the
stats path is *not* propagated: `getStats` swallows it and reports the
default zero counts (and `null` last scan). -/
theorem getStats_defaults_on_error :
    getStats (.error .ioError) (.error .ioError) (.error .ioError) (.error .ioError)
        (.error .ioError) =
      { totalScans := 0, todayScans := 0, yesterdayScans := 0, uniqueUids := 0,
        lastScan := none } := rfl

/-- A fixed-width rendering has exactly its width. -/
theorem length_padNum : ∀ w n, (padNum w n).length = w
  | 0, _ => rfl
  | w + 1, n => by simp [padNum, length_padNum w]

/-- `Nat.digitChar` is order preserving on decimal digits. -/
theorem digitChar_lt_iff : ∀ a, a < 10 → ∀ b, b < 10 →
    (Nat.digitChar a < Nat.digitChar b ↔ a < b) := by decide

/-- `Nat.digitChar` is injective on decimal digits. -/
theorem digitChar_inj_iff : ∀ a, a < 10 → ∀ b, b < 10 →
    (Nat.digitChar a = Nat.digitChar b ↔ a = b) := by decide

/-- Lexicographic comparison across equal-length blocks. -/
theorem append_lt_append_iff : ∀ (xs ys us vs : List Char), xs.length = ys.length →
    (xs ++ us < ys ++ vs ↔ xs < ys ∨ (xs = ys ∧ us < vs))
  | [], [], us, vs, _ => by
    simp [not_list_lt_nil ([] : List Char)]
  | [], y :: ys, _, _, h => by simp at h
  | x :: xs, [], _, _, h => by simp at h
  | x :: xs, y :: ys, us, vs, h => by
    have h' : xs.length = ys.length := by simpa using h
    simp only [List.cons_append, cons_lt_cons_iff, List.cons.injEq]
    rw [append_lt_append_iff xs ys us vs h']
    rcases lt_trichotomy x y with hxy | rfl | hxy
    · simp [hxy, ne_of_lt hxy]
    · simp [lt_irrefl]
    · simp [asymm hxy, not_lt_of_gt hxy, ne_of_gt hxy]

/-- Splitting a strict inequality by Euclidean division. -/
theorem lt_iff_div_lt_or (q : Nat) (hq : 0 < q) (a b : Nat) :
    a < b ↔ a / q < b / q ∨ (a / q = b / q ∧ a % q < b % q) := by
  constructor
  · intro hab
    rcases Nat.lt_trichotomy (a / q) (b / q) with h | h | h
    · exact Or.inl h
    · refine Or.inr ⟨h, ?_⟩
      have ha := Nat.div_add_mod a q
      have hb := Nat.div_add_mod b q
      rw [h] at ha
      have hma : a % q < q := Nat.mod_lt _ hq
      have hmb : b % q < q := Nat.mod_lt _ hq
      generalize q * (b / q) = t at ha hb
      omega
    · exact absurd (Nat.div_le_div_right hab.le) (Nat.not_le_of_lt h)
  · intro h
    rcases h with h | ⟨h, hm⟩
    · exact Nat.lt_of_div_lt_div h
    · have ha := Nat.div_add_mod a q
      have hb := Nat.div_add_mod b q
      rw [h] at ha
      generalize q * (b / q) = t at ha hb
      omega

/-- Fixed-width renderings compare like the numbers they render. -/
theorem padNum_lt_iff : ∀ w a b, a < 10 ^ w → b < 10 ^ w →
    (padNum w a < padNum w b ↔ a < b)
  | 0, a, b, ha, hb => by
    interval_cases a
    interval_cases b
    simp [padNum, not_list_lt_nil ([] : List Char)]
  | w + 1, a, b, ha, hb => by
    have hq : (0 : Nat) < 10 ^ w := Nat.pos_pow_of_pos w (by omega)
    have hda : a / 10 ^ w < 10 := by
      rw [Nat.div_lt_iff_lt_mul hq]
      calc a < 10 ^ (w + 1) := ha
        _ = 10 * 10 ^ w := by ring
    have hdb : b / 10 ^ w < 10 := by
      rw [Nat.div_lt_iff_lt_mul hq]
      calc b < 10 ^ (w + 1) := hb
        _ = 10 * 10 ^ w := by ring
    simp only [padNum, cons_lt_cons_iff]
    rw [digitChar_lt_iff _ hda _ hdb, digitChar_inj_iff _ hda _ hdb,
      padNum_lt_iff w _ _ (Nat.mod_lt _ hq) (Nat.mod_lt _ hq)]
    exact (lt_iff_div_lt_or (10 ^ w) hq a b).symm

/-- Fixed-width renderings are injective below their bound. -/
theorem padNum_inj : ∀ w a b, a < 10 ^ w → b < 10 ^ w →
    (padNum w a = padNum w b ↔ a = b)
  | 0, a, b, ha, hb => by
    interval_cases a
    interval_cases b
    simp [padNum]
  | w + 1, a, b, ha, hb => by
    have hq : (0 : Nat) < 10 ^ w := Nat.pos_pow_of_pos w (by omega)
    have hda : a / 10 ^ w < 10 := by
      rw [Nat.div_lt_iff_lt_mul hq]
      calc a < 10 ^ (w + 1) := ha
        _ = 10 * 10 ^ w := by ring
    have hdb : b / 10 ^ w < 10 := by
      rw [Nat.div_lt_iff_lt_mul hq]
      calc b < 10 ^ (w + 1) := hb
        _ = 10 * 10 ^ w := by ring
    simp only [padNum, List.cons.injEq]
    rw [digitChar_inj_iff _ hda _ hdb,
      padNum_inj w _ _ (Nat.mod_lt _ hq) (Nat.mod_lt _ hq)]
    constructor
    · rintro ⟨h1, h2⟩
      have ha' := Nat.div_add_mod a (10 ^ w)
      have hb' := Nat.div_add_mod b (10 ^ w)
      rw [h1, h2] at ha'
      generalize (10 : Nat) ^ w * (b / 10 ^ w) = t at ha' hb'
      omega
    · rintro rfl
      exact ⟨rfl, rfl⟩

/-- Comparison of one `⟨number, separator⟩` block of the ISO format. -/
theorem block_lt_iff (w x y : Nat) (sep : Char) (us vs : List Char)
    (hx : x < 10 ^ w) (hy : y < 10 ^ w) :
    (padNum w x ++ sep :: us) < (padNum w y ++ sep :: vs) ↔
      x < y ∨ (x = y ∧ us < vs) := by
  rw [append_lt_append_iff _ _ _ _ (by rw [length_padNum, length_padNum]),
    padNum_lt_iff w x y hx hy, padNum_inj w x y hx hy, cons_lt_cons_iff]
  simp [lt_irrefl]

/-- The ISO rendering always has exactly 24 characters. -/
theorem isoChars_length (t : DateTimeUTC) : (isoChars t).length = 24 := by
  simp [isoChars, length_padNum]

/-- On valid instants, lexicographic order of the ISO renderings is exactly
chronological order. -/
theorem isoChars_lt_iff (a b : DateTimeUTC) (ha : validDT a) (hb : validDT b) :
    (isoChars a < isoChars b ↔ chronoLt a b) := by
  obtain ⟨ha1, ha2, ha3, ha4, ha5, ha6, ha7, ha8, ha9⟩ := ha
  obtain ⟨hb1, hb2, hb3, hb4, hb5, hb6, hb7, hb8, hb9⟩ := hb
  rw [isoChars, isoChars,
    block_lt_iff 4 _ _ '-' _ _ (by norm_num; omega) (by norm_num; omega),
    block_lt_iff 2 _ _ '-' _ _ (by norm_num; omega) (by norm_num; omega),
    block_lt_iff 2 _ _ 'T' _ _ (by norm_num; omega) (by norm_num; omega),
    block_lt_iff 2 _ _ ':' _ _ (by norm_num; omega) (by norm_num; omega),
    block_lt_iff 2 _ _ ':' _ _ (by norm_num; omega) (by norm_num; omega),
    block_lt_iff 2 _ _ '.' _ _ (by norm_num; omega) (by norm_num; omega),
    block_lt_iff 3 _ _ 'Z' _ _ (by norm_num; omega) (by norm_num; omega)]
  simp [chronoLt, not_list_lt_nil ([] : List Char)]

/-- **C10.** Every record admitted by the pipeline carries the fixed-length
24-character ISO-8601 UTC timestamp produced at admission time, and on such
timestamps string comparison — the ledger's `ORDER BY timestamp DESC` and
inclusive range filters — coincides with chronological order. -/
theorem admitted_timestamp_iso (uid campaignId : String) (now : DateTimeUTC)
    (scanId secretKey : String) (a b : DateTimeUTC)
    (ha : validDT a) (hb : validDT b) :
    (postScanRecord uid campaignId now scanId secretKey).timestamp = toISOString now ∧
    (toISOString now).length = 24 ∧
    (toISOString a < toISOString b ↔ chronoLt a b) ∧
    (toISOString a ≤ toISOString b ↔ ¬ chronoLt b a) := by
  refine ⟨rfl, isoChars_length now, ?_, ?_⟩
  · rw [String.lt_iff_toList_lt]
    exact isoChars_lt_iff a b ha hb
  · rw [String.le_iff_toList_le, ← not_lt]
    exact not_congr (isoChars_lt_iff b a hb ha)

/-- Witness for `admitted_timestamp_iso`: two concrete valid instants ten
minutes apart. -/
theorem admitted_timestamp_iso_witness :
    validDT ⟨2025, 10, 11, 12, 0, 0, 0⟩ ∧ validDT ⟨2025, 10, 11, 12, 10, 0, 0⟩ ∧
    ((postScanRecord "TEST12345678" "DEMO01" ⟨2025, 10, 11, 12, 0, 0, 0⟩ "scan_A"
        "neocard-aei-hmac-secret-key-2024").timestamp =
      toISOString ⟨2025, 10, 11, 12, 0, 0, 0⟩ ∧
    (toISOString ⟨2025, 10, 11, 12, 0, 0, 0⟩).length = 24 ∧
    (toISOString ⟨2025, 10, 11, 12, 0, 0, 0⟩ < toISOString ⟨2025, 10, 11, 12, 10, 0, 0⟩ ↔
      chronoLt ⟨2025, 10, 11, 12, 0, 0, 0⟩ ⟨2025, 10, 11, 12, 10, 0, 0⟩) ∧
    (toISOString ⟨2025, 10, 11, 12, 0, 0, 0⟩ ≤ toISOString ⟨2025, 10, 11, 12, 10, 0, 0⟩ ↔
      ¬ chronoLt ⟨2025, 10, 11, 12, 10, 0, 0⟩ ⟨2025, 10, 11, 12, 0, 0, 0⟩)) :=
  ⟨by decide, by decide,
   admitted_timestamp_iso "TEST12345678" "DEMO01" ⟨2025, 10, 11, 12, 0, 0, 0⟩ "scan_A"
     "neocard-aei-hmac-secret-key-2024" ⟨2025, 10, 11, 12, 0, 0, 0⟩
     ⟨2025, 10, 11, 12, 10, 0, 0⟩ (by decide) (by decide)⟩

/-- **C8 (the code violates the claim).** Two simultaneous admission
requests for the same fresh identifier: under the racy interleaving (both
reads before either write) the middleware admits **both** — two records are
persisted within the cooldown window — whereas the serialized order rejects
the second with `COOLDOWN_ACTIVE 5`.  The read-evaluate-write sequence is
not serialized per identifier anywhere in the source. -/
theorem race_admits_both :
    (raceBothRead defaultConfig [] "TEST12345678" "DEMO01"
        ⟨2025, 10, 11, 12, 0, 0, 0⟩ ⟨2025, 10, 11, 12, 0, 0, 0⟩
        "scan_A" "scan_B" "neocard-aei-hmac-secret-key-2024").1 = .proceed ∧
    (raceBothRead defaultConfig [] "TEST12345678" "DEMO01"
        ⟨2025, 10, 11, 12, 0, 0, 0⟩ ⟨2025, 10, 11, 12, 0, 0, 0⟩
        "scan_A" "scan_B" "neocard-aei-hmac-secret-key-2024").2.1 = .proceed ∧
    (raceBothRead defaultConfig [] "TEST12345678" "DEMO01"
        ⟨2025, 10, 11, 12, 0, 0, 0⟩ ⟨2025, 10, 11, 12, 0, 0, 0⟩
        "scan_A" "scan_B" "neocard-aei-hmac-secret-key-2024").2.2.length = 2 ∧
    serialSecond defaultConfig [] "TEST12345678" "DEMO01"
        ⟨2025, 10, 11, 12, 0, 0, 0⟩ ⟨2025, 10, 11, 12, 0, 0, 0⟩
        "scan_A" "neocard-aei-hmac-secret-key-2024" = .cooldownActive 5 :=
  ⟨by decide, by decide, by decide, by decide⟩

end NeoCard
